import Mathlib

/-!
Verification of the `dtaidistance.dtw_cc` Cython binding
(`src/dtaidistance/dtw_cc.pyx`) against its natural-language specification.

The file contains a shallow embedding of the binding's functions.  Machine
integers are modelled as `Nat`/`Int` with explicit two's-complement wrapping
where C arithmetic can overflow:

* `nb_series` is a C `int` (32 bit); the full-triangle product
  `(nb_series / 2) * (nb_series - 1)` is evaluated in C `int` arithmetic
  before being assigned to the C `long` accumulator, hence `wrap32`.
* `llength` is a C `long` (64 bit on LP64); each `llength += ...` wraps at
  64 bits, hence `wrap64` in the loop.
* `Py_ssize_t` is 64-bit signed; the final `slength < 0` test is modelled by
  the `Option Int` result (`none` models the error path, which prints the
  overflow message and falls off the function returning Python `None`).

The per-pair DTW kernel (`dtaidistancec.dtw_distance`) is C code that is not
part of the repository sources given here; it is modelled from the
specification (see the definitions marked `Modelled from the spec`).
-/

/-- Two's-complement wrap of an integer to the C `int` (32-bit signed) range,
as performed when a C expression overflows `int`. -/
def wrap32 (x : Int) : Int := (x + 2147483648) % 4294967296 - 2147483648

/-- Two's-complement wrap of an integer to the C `long` (64-bit signed) range. -/
def wrap64 (x : Int) : Int :=
  (x + 9223372036854775808) % 18446744073709551616 - 9223372036854775808

/-- The `DTWBlock` record: half-open row range `[rb, re)` and column range
`[cb, ce)`.  The fields are nonnegative `Py_ssize_t` values. -/
structure CBlock where
  rb : Nat
  re : Nat
  cb : Nat
  ce : Nat
deriving DecidableEq

/-- The full-triangle branch of `distance_matrix_length`: the source computes
`(nb_series / 2) * (nb_series - 1)` (respectively
`nb_series * ((nb_series - 1) / 2)`) on C `int` operands, so the product wraps
at 32 bits before being widened to `long`.  `nb_series ≥ 0`, so `Nat` division
matches the C division here (for `nb_series = 0` the even branch multiplies by
zero under either convention). -/
def tri32 (nb_series : Nat) : Int :=
  if nb_series % 2 = 0 then wrap32 ((nb_series / 2 * (nb_series - 1) : Nat) : Int)
  else wrap32 ((nb_series * ((nb_series - 1) / 2) : Nat) : Int)

/-- One iteration's addend in the restricted-block loop of
`distance_matrix_length`:
`if block.cb <= ri: if block.ce > ri: llength += (block.ce - ri - 1)`
`else: if block.ce > ri: llength += (block.ce - block.cb)`. -/
def rowAdd (cb ce ri : Nat) : Int :=
  if cb ≤ ri then (if ri < ce then (ce : Int) - ri - 1 else 0)
  else (if ri < ce then (ce : Int) - cb else 0)

/-- The accumulation loop `for ri in range(block.rb, block.re)` of
`distance_matrix_length`.  Each `llength += ...` is a C `long` addition and
wraps at 64 bits. -/
def lengthLoop (cb ce : Nat) : List Nat → Int → Int
  | [], acc => acc
  | ri :: rest, acc => lengthLoop cb ce rest (wrap64 (acc + rowAdd cb ce ri))

/-- Embedding of `distance_matrix_length(block, nb_series)`
(src/dtaidistance/dtw_cc.pyx, lines 261-289).  `nb_series` is the C `int`
parameter (callers can only supply values `< 2^31`; larger Python ints raise
`OverflowError` during argument conversion, before the body runs).  The result
is `none` when `slength < 0`, in which case the source prints the overflow
error message and returns Python `None`. -/
def distance_matrix_length (block : CBlock) (nb_series : Nat) : Option Int :=
  let llength : Int :=
    if block.re = 0 ∧ block.ce = 0 then tri32 nb_series
    else lengthLoop block.cb block.ce (List.range' block.rb (block.re - block.rb)) 0
  if llength < 0 then none else some llength

/-- Per-row count of the restricted-block length formula as the specification
words it: `max(0, ce - ri - 1)` when `cb ≤ ri`, else `max(0, ce - cb)`. -/
def claimRow (cb ce ri : Nat) : Int :=
  if cb ≤ ri then max 0 ((ce : Int) - ri - 1) else max 0 ((ce : Int) - cb)

/-- The restricted-block length exactly as the specification states it: the sum
of `claimRow` over the rows `ri ∈ [rb, re)`. -/
def claimLength (rb re cb ce : Nat) : Int :=
  ((List.range' rb (re - rb)).map (claimRow cb ce)).sum

/-- Brute-force enumeration (from the spec's test list) of the pairs
`(ri, ci)` with `ri < ci`, `ri ∈ [1,4)`, `ci ∈ [2,5)` over `n = 6`. -/
def bruteCount : Nat :=
  ((List.range 6).map (fun ri =>
    ((List.range 6).filter
      (fun ci => decide (ri < ci ∧ 1 ≤ ri ∧ ri < 4 ∧ 2 ≤ ci ∧ ci < 5))).length)).sum

/-- Number of output slots demanded by the spec's enumeration order over a
(sentinel-resolved) block: pairs `(ri, ci)` with `ri ∈ [rb, re)` and
`ci ∈ [max(ri+1, cb), ce)`. -/
def pairCount (b : CBlock) : Nat :=
  ((List.range' b.rb (b.re - b.rb)).map (fun ri => b.ce - Nat.max (ri + 1) b.cb)).sum

/-- Sentinel resolution as performed by `distance_matrix` (lines 231-235):
`re` and `ce` are each replaced by the collection size when they are `0`
(note: each one independently of the other). -/
def resolveBlock (b : CBlock) (n : Nat) : CBlock :=
  ⟨b.rb, if b.re = 0 then n else b.re, b.cb, if b.ce = 0 then n else b.ce⟩

/-- Python exception classes raised by the binding, collapsed to the kinds the
claims speak about.  `conversionError` stands for the exception propagating out
of `dtw_series_from_data` (a `ValueError` for data that a
`double[:, ::1]` memoryview rejects, a `TypeError`/`AttributeError` for
non-sequence data). -/
inductive PyErr
  | typeError
  | overflowError
  | conversionError
  | indexError
deriving DecidableEq

/-- The `block` argument of `distance_matrix`.  `pyNone` is Python `None`;
`pyZero` is any value comparing equal to `0.0` (such as the integer `0`),
which fails the guard `block is not None and block != 0.0` just like `None`;
`pairs` is the pair-of-pairs form `((rb, re), (cb, ce))` (the four values are
converted to C `int`, so callers can only supply values `< 2^31`). -/
inductive BlockArg
  | pyNone
  | pyZero
  | pairs (rb re cb ce : Nat)
deriving DecidableEq

/-- The block bounds extracted by `distance_matrix` (lines 216-225): the four
`cdef int` locals stay `0` unless the guard `block is not None and
block != 0.0` passes. -/
def blockBounds : BlockArg → CBlock
  | .pyNone => ⟨0, 0, 0, 0⟩
  | .pyZero => ⟨0, 0, 0, 0⟩
  | .pairs rb re cb ce => ⟨rb, re, cb, ce⟩

/-- The shapes of `cur` arguments relevant to the claims.  `listOfBuffers n`
is a `list`/`tuple` of `n` numeric buffers; `uniformMatrix n cols` is a dense
two-dimensional C-contiguous `double` buffer with `n` rows; `invalidData n` is
an object with a `len` that is neither form (the `double[:, ::1]` conversion
inside `dtw_series_from_data` raises); `invalidNoLen` has no `len()` at all,
so `len(cur)` itself raises `TypeError`.  (Direct `DTWSeriesPointers`/
`DTWSeriesMatrix` arguments are omitted: neither extension type defines
`__len__`, so `len(cur)` at line 229 raises for them as well.) -/
inductive PyData
  | listOfBuffers (n : Nat)
  | uniformMatrix (n cols : Nat)
  | invalidData (n : Nat)
  | invalidNoLen
deriving DecidableEq

/-- `len(cur)`: `none` models the `TypeError` raised when the object has no
length. -/
def pyLen : PyData → Option Nat
  | .listOfBuffers n => some n
  | .uniformMatrix n _ => some n
  | .invalidData n => some n
  | .invalidNoLen => none

/-- Result of `dtw_series_from_data`: either a `DTWSeriesPointers` or a
`DTWSeriesMatrix`. -/
inductive SeriesForm
  | pointers (n : Nat)
  | matrixForm (n cols : Nat)
deriving DecidableEq

/-- Embedding of `dtw_series_from_data(data)` (lines 161-176): `list`, `set`
and `tuple` inputs become a `DTWSeriesPointers`; otherwise the function tries
to build a `DTWSeriesMatrix` and re-raises a `ValueError` when the conversion
fails (other exception classes propagate directly; both are collapsed into
`conversionError`). -/
def dtw_series_from_data : PyData → Except PyErr SeriesForm
  | .listOfBuffers n => .ok (.pointers n)
  | .uniformMatrix n c => .ok (.matrixForm n c)
  | .invalidData _ => .error .conversionError
  | .invalidNoLen => .error .conversionError

/-- Successful outcome of `distance_matrix`: the length of the flat output
buffer allocated with `array.resize(dists, length)`, the sentinel-resolved
block handed to the C batch kernel, and the fact that a per-pair kernel
(`dtw_distances_ptrs` or `dtw_distances_matrix`) was invoked. -/
structure MatrixOutcome where
  bufLen : Nat
  resolvedBlock : CBlock
  kernelInvoked : Bool
deriving DecidableEq

/-- Embedding of `distance_matrix(cur, block, **kwargs)` (lines 201-258).
Steps, in source order: read the block bounds (guard
`block is not None and block != 0.0`); `length = distance_matrix_length(...)`
where `length` is a `cdef int`, so a `None` result raises `TypeError` and a
value `≥ 2^31` raises `OverflowError`; resolve the `re`/`ce` sentinels
independently; allocate the output buffer; classify `cur` (via
`dtw_series_from_data` for external data) and invoke the C batch kernel.
An `Except.error` result models the exception propagating to the caller:
no output buffer is returned and no per-pair kernel computation has run. -/
def distance_matrix (block : BlockArg) (cur : PyData) : Except PyErr MatrixOutcome :=
  let b := blockBounds block
  match pyLen cur with
  | none => .error .typeError
  | some n =>
    match distance_matrix_length b n with
    | none => .error .typeError
    | some L =>
      if 2147483648 ≤ L then .error .overflowError
      else
        match dtw_series_from_data cur with
        | .error e => .error e
        | .ok _ => .ok ⟨L.toNat, resolveBlock b n, true⟩

/-- Whether a `distance_matrix` call ever reached a per-pair kernel
invocation. -/
def kernelWasInvoked : Except PyErr MatrixOutcome → Bool
  | .ok o => o.kernelInvoked
  | .error _ => false

/-- The C settings record `DTWSettings._settings`.  `window`,
`max_length_diff` and `psi` are nonnegative integers; `max_dist`, `max_step`
and `penalty` are nonnegative reals (modelled as rationals; only structural
facts about storing them are proved, no floating-point arithmetic). -/
structure CSettings where
  window : Nat
  max_dist : ℚ
  max_step : ℚ
  max_length_diff : Nat
  penalty : ℚ
  psi : Nat
deriving DecidableEq

/-- The keyword arguments recognised by `DTWSettings.__init__`.  For each
option, `none` means the key is absent from `kwargs`, `some none` means it was
passed explicitly as Python `None`, and `some (some v)` means it was passed
with value `v`. -/
structure SettingsKwargs where
  window : Option (Option Nat)
  max_dist : Option (Option ℚ)
  max_step : Option (Option ℚ)
  max_length_diff : Option (Option Nat)
  penalty : Option (Option ℚ)
  psi : Option (Option Nat)

/-- One `if "opt" in kwargs: if kwargs["opt"] is None: ... = 0 else: ... =
kwargs["opt"]` paragraph of `DTWSettings.__init__`. -/
def applyKw {α : Type} (cur : α) (kw : Option (Option α)) (zero : α) : α :=
  match kw with
  | none => cur
  | some none => zero
  | some (some v) => v

/-- Embedding of `DTWSettings.__init__(**kwargs)` (lines 60-91).  The starting
record comes from the external C function `dtw_default_settings()`, taken here
as an arbitrary parameter `defaults`. -/
def DTWSettings_init (defaults : CSettings) (kw : SettingsKwargs) : CSettings :=
  { window := applyKw defaults.window kw.window 0
    max_dist := applyKw defaults.max_dist kw.max_dist 0
    max_step := applyKw defaults.max_step kw.max_step 0
    max_length_diff := applyKw defaults.max_length_diff kw.max_length_diff 0
    penalty := applyKw defaults.penalty kw.penalty 0
    psi := applyKw defaults.psi kw.psi 0 }

/-- Elementwise distance of the spec's documented convention: squared
difference. -/
def sqDiff (x y : ℚ) : ℚ := (x - y) ^ 2

/-- Absolute difference of two natural numbers (used for the Sakoe-Chiba
window test `|i - j|` and the `max_length_diff` pre-check `|n1 - n2|`). -/
def natDist (a b : Nat) : Nat := max a b - min a b

/-- Modelled from the spec: the accumulated-cost grid of the constrained DTW
recurrence computed by the C kernel `dtaidistancec.dtw_distance`, which is not
among the given sources.  `dtwCell st s1 s2 i j` is `cost[i][j]` on the
virtual `(n1+1) × (n2+1)` grid: `cost[0][0] = 0`; boundary cells are
`+infinity` except that `psi` relaxes the first `psi` of them to `0`; interior
cells outside the window band, or whose elementwise step cost exceeds a
nonzero `max_step`, are unreachable (`⊤`); otherwise
`cost[i][j] = d(s1[i-1], s2[j-1]) + min(diag, up + penalty, left + penalty)`.
Unreachable values are `⊤` in `WithTop ℚ`. -/
def dtwCell (st : CSettings) (s1 s2 : List ℚ) : Nat → Nat → WithTop ℚ
  | 0, j => if j ≤ st.psi then 0 else ⊤
  | i + 1, 0 => if i + 1 ≤ st.psi then 0 else ⊤
  | i + 1, j + 1 =>
    if st.window ≠ 0 ∧ st.window < natDist (i + 1) (j + 1) then ⊤
    else if st.max_step ≠ 0 ∧ st.max_step < sqDiff (s1.getD i 0) (s2.getD j 0) then ⊤
    else
      (sqDiff (s1.getD i 0) (s2.getD j 0) : WithTop ℚ) +
        min (dtwCell st s1 s2 i j)
          (min (dtwCell st s1 s2 i (j + 1) + (st.penalty : WithTop ℚ))
            (dtwCell st s1 s2 (i + 1) j + (st.penalty : WithTop ℚ)))

/-- Minimum of a list of extended costs (`⊤` for the empty list). -/
def minList : List (WithTop ℚ) → WithTop ℚ
  | [] => ⊤
  | x :: xs => min x (minList xs)

/-- Modelled from the spec: the psi-relaxed band of final-column cells
`cost[n1 - 1 - k][n2]` for `k < min psi n1`. -/
def psiEndCol (st : CSettings) (s1 s2 : List ℚ) : List (WithTop ℚ) :=
  (List.range (min st.psi s1.length)).map
    (fun k => dtwCell st s1 s2 (s1.length - 1 - k) s2.length)

/-- Modelled from the spec: the psi-relaxed band of final-row cells
`cost[n1][n2 - 1 - k]` for `k < min psi n2`. -/
def psiEndRow (st : CSettings) (s1 s2 : List ℚ) : List (WithTop ℚ) :=
  (List.range (min st.psi s2.length)).map
    (fun k => dtwCell st s1 s2 s1.length (s2.length - 1 - k))

/-- Modelled from the spec: the accumulated (squared) DTW cost returned by the
C kernel before the final square root.  A nonzero `max_length_diff` rejects
pairs whose length difference exceeds it without running the recurrence;
otherwise the result is the minimum of `cost[n1][n2]` and the psi-relaxed
boundary bands of the final row and column.  (The spec's `max_dist` early
abandoning is a permission — "the algorithm *may* abandon" — and is modelled
as not abandoning, which returns the exact minimum.) -/
def dtw_cost (st : CSettings) (s1 s2 : List ℚ) : WithTop ℚ :=
  if st.max_length_diff ≠ 0 ∧ st.max_length_diff < natDist s1.length s2.length then ⊤
  else
    min (dtwCell st s1 s2 s1.length s2.length)
      (min (minList (psiEndCol st s1 s2)) (minList (psiEndRow st s1 s2)))

/-- Modelled from the spec: the scalar DTW distance of the C kernel
`dtaidistancec.dtw_distance` — the accumulated squared-difference cost
followed by one final square root. -/
noncomputable def dtw_distance (st : CSettings) (s1 s2 : List ℚ) : WithTop ℝ :=
  WithTop.map (fun q : ℚ => Real.sqrt (q : ℝ)) (dtw_cost st s1 s2)

/-- Taking the address `&s[0]` of the first element of a typed memoryview:
with Cython's default `boundscheck=True` this raises `IndexError` when the
view is empty. -/
def memviewFirst (s : List ℚ) : Except PyErr Unit :=
  if 0 < s.length then .ok () else .error .indexError

/-- Embedding of the binding `distance(s1, s2, **kwargs)` (lines 179-191): it
builds the settings, evaluates `&s1[0]` and `&s2[0]` (left to right), and
calls the C kernel.  The settings record is taken directly (the binding
produces it via `DTWSettings(**kwargs)`). -/
noncomputable def distance (s1 s2 : List ℚ) (st : CSettings) :
    Except PyErr (WithTop ℝ) :=
  match memviewFirst s1, memviewFirst s2 with
  | .ok _, .ok _ => .ok (dtw_distance st s1 s2)
  | .error e, _ => .error e
  | .ok _, .error e => .error e

/-- A sample (arbitrary, nonzero) result of the external C call
`dtw_default_settings()`, used to instantiate theorems about
`DTWSettings.__init__` at a concrete starting record. -/
def exampleDefaults : CSettings := ⟨7, 1, 2, 3, 4, 5⟩

/-- The keyword dictionary in which each of the six recognized options is
passed explicitly as Python `None`. -/
def kwAllNone : SettingsKwargs :=
  ⟨some none, some none, some none, some none, some none, some none⟩

theorem wrap32_eq_self {x : Int} (h0 : 0 ≤ x) (h1 : x < 2147483648) : wrap32 x = x := by
  have h : (x + 2147483648) % 4294967296 = x + 2147483648 :=
    Int.emod_eq_of_lt (by omega) (by omega)
  simp only [wrap32, h]
  omega

theorem wrap64_eq_self {x : Int} (h0 : 0 ≤ x) (h1 : x ≤ 9223372036854775807) :
    wrap64 x = x := by
  have h : (x + 9223372036854775808) % 18446744073709551616 =
      x + 9223372036854775808 := Int.emod_eq_of_lt (by omega) (by omega)
  simp only [wrap64, h]
  omega

theorem rowAdd_eq {cb ce : Nat} (hcb : cb ≤ ce) (ri : Nat) :
    rowAdd cb ce ri = ((ce - Nat.max (ri + 1) cb : Nat) : Int) := by
  simp only [rowAdd, Nat.max_def]
  split_ifs <;> omega

theorem listSum_nonneg : ∀ l : List Int, (∀ x ∈ l, 0 ≤ x) → 0 ≤ l.sum := by
  intro l h
  induction l with
  | nil => simp
  | cons x xs ih =>
    simp only [List.sum_cons]
    have hx := h x (by simp)
    have hxs := ih (fun y hy => h y (by simp [hy]))
    omega

theorem lengthLoop_eq (cb ce : Nat) (bound : Int) (hbound : 0 ≤ bound)
    (hb : ∀ ri : Nat, 0 ≤ rowAdd cb ce ri ∧ rowAdd cb ce ri ≤ bound) :
    ∀ (l : List Nat) (acc : Int), 0 ≤ acc →
      acc + (l.length : Int) * bound ≤ 9223372036854775807 →
      lengthLoop cb ce l acc = acc + (l.map (rowAdd cb ce)).sum := by
  intro l
  induction l with
  | nil => intro acc h0 h1; simp [lengthLoop]
  | cons ri rest ih =>
    intro acc h0 h1
    obtain ⟨hr0, hr1⟩ := hb ri
    have hP : 0 ≤ (rest.length : Int) * bound :=
      mul_nonneg (Int.natCast_nonneg _) hbound
    have hlen : ((ri :: rest).length : Int) * bound =
        (rest.length : Int) * bound + bound := by
      simp only [List.length_cons]
      push_cast
      ring
    rw [hlen] at h1
    have hwrap : wrap64 (acc + rowAdd cb ce ri) = acc + rowAdd cb ce ri :=
      wrap64_eq_self (by omega) (by omega)
    simp only [lengthLoop, hwrap]
    rw [ih (acc + rowAdd cb ce ri) (by omega) (by omega)]
    simp only [List.map_cons, List.sum_cons]
    ring

theorem dml_restricted (rb re cb ce n : Nat) (hre : re ≤ n) (hcb : cb ≤ ce)
    (hce : ce ≤ n) (hn : (n : Int) ≤ 2147483647) (hblk : ¬(re = 0 ∧ ce = 0)) :
    distance_matrix_length ⟨rb, re, cb, ce⟩ n =
      some (((List.range' rb (re - rb)).map (rowAdd cb ce)).sum) := by
  have hb : ∀ ri : Nat, 0 ≤ rowAdd cb ce ri ∧ rowAdd cb ce ri ≤ (n : Int) := by
    intro ri
    rw [rowAdd_eq hcb]
    constructor
    · exact Int.natCast_nonneg _
    · have : (ce - Nat.max (ri + 1) cb : Nat) ≤ n := by omega
      omega
  have hlenle : ((List.range' rb (re - rb)).length : Int) ≤ (n : Int) := by
    rw [List.length_range']
    omega
  have hprod : ((List.range' rb (re - rb)).length : Int) * (n : Int) ≤
      9223372036854775807 := by
    calc ((List.range' rb (re - rb)).length : Int) * (n : Int)
        ≤ 2147483647 * 2147483647 := by
          apply mul_le_mul (by omega) hn (Int.natCast_nonneg _) (by norm_num)
      _ ≤ 9223372036854775807 := by norm_num
  have hloop := lengthLoop_eq cb ce (n : Int) (Int.natCast_nonneg _) hb
      (List.range' rb (re - rb)) 0 le_rfl (by omega)
  have hsum : 0 ≤ ((List.range' rb (re - rb)).map (rowAdd cb ce)).sum := by
    apply listSum_nonneg
    intro x hx
    obtain ⟨ri, _, rfl⟩ := List.mem_map.mp hx
    exact (hb ri).1
  simp only [distance_matrix_length]
  rw [if_neg hblk, hloop, zero_add, if_neg (by omega)]

theorem two_mul_sum_range : ∀ n : Nat, 2 * (List.range n).sum = n * (n - 1) := by
  intro n
  induction n with
  | zero => simp
  | succ m ih =>
    rw [List.range_succ, List.sum_append]
    simp only [List.sum_cons, List.sum_nil]
    have h : (m + 1) * (m + 1 - 1) = m * (m - 1) + 2 * m := by
      cases m with
      | zero => rfl
      | succ k =>
        simp only [Nat.add_sub_cancel]
        ring
    omega

theorem sum_range_rev (n : Nat) :
    ((List.range n).map (fun ri => n - 1 - ri)).sum = (List.range n).sum := by
  have h := List.reverse_range' 0 n
  simp only [Nat.zero_add] at h
  calc ((List.range n).map (fun ri => n - 1 - ri)).sum
      = ((List.range' 0 n).reverse).sum := by rw [h]
    _ = (List.range' 0 n).sum := List.sum_reverse _
    _ = (List.range n).sum := by rw [List.range_eq_range']

theorem triangle_closed (n : Nat) :
    ((List.range n).map (fun ri => n - (ri + 1))).sum = n * (n - 1) / 2 := by
  have h1 : ((List.range n).map (fun ri => n - (ri + 1))).sum
      = ((List.range n).map (fun ri => n - 1 - ri)).sum := by
    congr 1
    apply List.map_congr_left
    intro a _
    omega
  rw [h1, sum_range_rev]
  have := two_mul_sum_range n
  omega

theorem pairCount_full (n : Nat) : pairCount ⟨0, n, 0, n⟩ = n * (n - 1) / 2 := by
  have h1 : pairCount ⟨0, n, 0, n⟩ =
      ((List.range n).map (fun ri => n - (ri + 1))).sum := by
    simp only [pairCount, Nat.sub_zero]
    rw [← List.range_eq_range']
    apply congrArg
    apply List.map_congr_left
    intro a _
    simp only [Nat.max_def]
    split_ifs <;> omega
  rw [h1, triangle_closed]

theorem natSum_le_of_sublist {l₁ l₂ : List Nat} (h : List.Sublist l₁ l₂) :
    l₁.sum ≤ l₂.sum := by
  induction h with
  | slnil => simp
  | cons a _ ih =>
    simp only [List.sum_cons]
    omega
  | cons₂ a _ ih =>
    simp only [List.sum_cons]
    omega

theorem range'_block_sublist {rb re n : Nat} (hre : re ≤ n) :
    List.Sublist (List.range' rb (re - rb)) (List.range n) := by
  by_cases hrb : rb ≤ re
  · have h1 : List.Sublist (List.range' rb (re - rb)) (List.range' rb (n - rb)) :=
      List.range'_sublist_right.mpr (by omega)
    have h2 : List.Sublist (List.range' rb (n - rb))
        (List.range' 0 rb ++ List.range' rb (n - rb)) :=
      List.sublist_append_right _ _
    have h3 : List.range' 0 rb ++ List.range' rb (n - rb) = List.range n := by
      have := List.range'_append_1 0 rb (n - rb)
      simp only [Nat.zero_add] at this
      rw [this, ← List.range_eq_range']
      congr 1
      omega
    rw [h3] at h2
    exact h1.trans h2
  · have : re - rb = 0 := by omega
    rw [this]
    exact List.nil_sublist _

theorem pairCount_le_tri {rb re cb ce n : Nat} (hre : re ≤ n) (hce : ce ≤ n) :
    pairCount ⟨rb, re, cb, ce⟩ ≤ n * (n - 1) / 2 := by
  have hpoint : ∀ ri ∈ List.range' rb (re - rb),
      ce - Nat.max (ri + 1) cb ≤ n - (ri + 1) := by
    intro ri _
    simp only [Nat.max_def]
    split_ifs <;> omega
  have h1 : pairCount ⟨rb, re, cb, ce⟩ ≤
      ((List.range' rb (re - rb)).map (fun ri => n - (ri + 1))).sum :=
    List.sum_le_sum hpoint
  have h2 : ((List.range' rb (re - rb)).map (fun ri => n - (ri + 1))).sum ≤
      ((List.range n).map (fun ri => n - (ri + 1))).sum :=
    natSum_le_of_sublist ((range'_block_sublist hre).map _)
  calc pairCount ⟨rb, re, cb, ce⟩
      ≤ ((List.range' rb (re - rb)).map (fun ri => n - (ri + 1))).sum := h1
    _ ≤ ((List.range n).map (fun ri => n - (ri + 1))).sum := h2
    _ = n * (n - 1) / 2 := triangle_closed n

theorem tri32_exact {n : Nat} (hn : n ≤ 65536) :
    tri32 n = ((n * (n - 1) / 2 : Nat) : Int) := by
  have hbound : n * (n - 1) / 2 ≤ 2147450880 := by
    have h1 : n * (n - 1) ≤ 65536 * 65535 :=
      Nat.mul_le_mul hn (by omega)
    have h2 : n * (n - 1) / 2 ≤ 65536 * 65535 / 2 := Nat.div_le_div_right h1
    omega
  have heven : n % 2 = 0 → n / 2 * (n - 1) = n * (n - 1) / 2 := by
    intro h
    obtain ⟨k, rfl⟩ : ∃ k, n = 2 * k := ⟨n / 2, by omega⟩
    have hk : 2 * k / 2 = k := by omega
    rw [hk, mul_assoc 2 k (2 * k - 1), Nat.mul_div_cancel_left _ (by norm_num)]
  have hodd : n % 2 = 1 → n * ((n - 1) / 2) = n * (n - 1) / 2 := by
    intro h
    obtain ⟨k, rfl⟩ : ∃ k, n = 2 * k + 1 := ⟨n / 2, by omega⟩
    have hs : 2 * k + 1 - 1 = 2 * k := by omega
    rw [hs]
    have hk : 2 * k / 2 = k := by omega
    rw [hk]
    have hm : (2 * k + 1) * (2 * k) = 2 * ((2 * k + 1) * k) := by ring
    rw [hm, Nat.mul_div_cancel_left _ (by norm_num)]
  simp only [tri32]
  rcases Nat.even_or_odd n with he | ho
  · have h0 : n % 2 = 0 := Nat.even_iff.mp he
    rw [if_pos h0, heven h0]
    exact wrap32_eq_self (Int.natCast_nonneg _) (by omega)
  · have h1 : n % 2 = 1 := Nat.odd_iff.mp ho
    rw [if_neg (by omega), hodd h1]
    exact wrap32_eq_self (Int.natCast_nonneg _) (by omega)

theorem dml_full (n : Nat) :
    distance_matrix_length ⟨0, 0, 0, 0⟩ n = some (tri32 n) ∨
      distance_matrix_length ⟨0, 0, 0, 0⟩ n = none := by
  simp only [distance_matrix_length, and_self, if_true]
  by_cases h : tri32 n < 0
  · right; rw [if_pos h]
  · left; rw [if_neg h]

theorem dml_full_exact {n : Nat} (hn : n ≤ 65536) :
    distance_matrix_length ⟨0, 0, 0, 0⟩ n = some ((n * (n - 1) / 2 : Nat) : Int) := by
  simp only [distance_matrix_length, and_self, if_true, tri32_exact hn]
  rw [if_neg (not_lt.mpr (Int.natCast_nonneg _))]

theorem minSwap (x y z : WithTop ℚ) : min x (min y z) = min x (min z y) := by
  rw [min_comm y z]

theorem natDist_comm (a b : Nat) : natDist a b = natDist b a := by
  simp only [natDist, Nat.max_comm, Nat.min_comm]

theorem sqDiff_comm (x y : ℚ) : sqDiff x y = sqDiff y x := by
  simp only [sqDiff]
  ring

theorem dtwCell_symm (st : CSettings) (s1 s2 : List ℚ) :
    ∀ i j, dtwCell st s2 s1 j i = dtwCell st s1 s2 i j := by
  intro i
  induction i with
  | zero =>
    intro j
    cases j with
    | zero => simp [dtwCell]
    | succ b => simp [dtwCell]
  | succ a iha =>
    intro j
    induction j with
    | zero => simp [dtwCell]
    | succ b ihb =>
      simp only [dtwCell]
      rw [iha b, ihb, iha (b + 1)]
      rw [natDist_comm (b + 1) (a + 1), sqDiff_comm (s2.getD b 0) (s1.getD a 0)]
      rw [minSwap]

theorem psiEnd_swap (st : CSettings) (s1 s2 : List ℚ) :
    psiEndCol st s2 s1 = psiEndRow st s1 s2 := by
  simp only [psiEndCol, psiEndRow]
  apply List.map_congr_left
  intro k _
  exact dtwCell_symm st s1 s2 s1.length (s2.length - 1 - k)

theorem dtw_cost_symm (st : CSettings) (s1 s2 : List ℚ) :
    dtw_cost st s2 s1 = dtw_cost st s1 s2 := by
  simp only [dtw_cost]
  rw [natDist_comm s2.length s1.length]
  rw [dtwCell_symm st s1 s2 s1.length s2.length]
  rw [psiEnd_swap st s1 s2, psiEnd_swap st s2 s1]
  rw [minSwap]

theorem dtw_distance_symm (st : CSettings) (s1 s2 : List ℚ) :
    dtw_distance st s2 s1 = dtw_distance st s1 s2 := by
  simp only [dtw_distance, dtw_cost_symm]

theorem claimRow_eq_rowAdd {cb ce : Nat} (h : cb ≤ ce) (ri : Nat) :
    claimRow cb ce ri = rowAdd cb ce ri := by
  simp only [claimRow, rowAdd, max_def]
  split_ifs <;> omega

theorem tri_le {n : Nat} (hn : n ≤ 65536) : n * (n - 1) / 2 ≤ 2147450880 := by
  have h1 : n * (n - 1) ≤ 65536 * 65535 := Nat.mul_le_mul hn (by omega)
  have h2 : n * (n - 1) / 2 ≤ 65536 * 65535 / 2 := Nat.div_le_div_right h1
  omega

theorem rowSum_cast {rb re cb ce : Nat} (hcb : cb ≤ ce) :
    ((List.range' rb (re - rb)).map (rowAdd cb ce)).sum =
      ((pairCount ⟨rb, re, cb, ce⟩ : Nat) : Int) := by
  simp only [pairCount]
  rw [Nat.cast_list_sum, List.map_map]
  apply congrArg
  apply List.map_congr_left
  intro ri _
  rw [rowAdd_eq hcb]
  rfl

/-- C1: for a full unrestricted block (`re = ce = 0`), `distance_matrix_length`
is claimed to return `n*(n-1)/2` for every collection size `n ≥ 0`, dividing
the even operand before multiplying; it does return `10` for `n = 5` and `15`
for `n = 6`, but because the product is computed on C `int` (32-bit) operands
it wraps for `n = 65537`: the code then takes its own overflow-error path and
returns `None`, even though the true count `2147516416` comfortably fits the
64-bit platform size type. -/
theorem c1_full_triangle_length :
    distance_matrix_length ⟨0, 0, 0, 0⟩ 5 = some 10 ∧
    distance_matrix_length ⟨0, 0, 0, 0⟩ 6 = some 15 ∧
    distance_matrix_length ⟨0, 0, 0, 0⟩ 65537 = none ∧
    ((65537 * (65537 - 1) / 2 : Nat) : Int) = 2147516416 ∧
    (2147516416 : Int) ≤ 9223372036854775807 := by
  refine ⟨by decide, by decide, by decide, by decide, by decide⟩

/-- C3: the overflow policy claims a wide accumulator and that no negative or
silently wrapped value is ever returned.  At `n = 92683` the 32-bit
intermediate product wraps past `2^32` back into the positive range: the
function returns `55607` silently although the true pair count is
`4295022903` (which itself fits the signed 64-bit size type), so the
claimed detection does not happen. -/
theorem c3_overflow_silent_wrap :
    distance_matrix_length ⟨0, 0, 0, 0⟩ 92683 = some 55607 ∧
    ((92683 * (92683 - 1) / 2 : Nat) : Int) = 4295022903 ∧
    (55607 : Int) ≠ 4295022903 ∧
    (4295022903 : Int) ≤ 9223372036854775807 := by
  refine ⟨by decide, by decide, by decide, by decide⟩

/-- C2: for blocks satisfying the documented invariants
(`rb ≤ re ≤ n`, `cb ≤ ce ≤ n`, not both sentinels zero), the length returned
by `distance_matrix_length` equals the spec's per-row sum
(`max(0, ce-ri-1)` when `cb ≤ ri`, else `max(0, ce-cb)`), and at the concrete
block `(rb=1, re=4, cb=2, ce=5)` over `n = 6` it equals the brute-force
count of pairs `(ri, ci)` with `ri < ci`, `ri ∈ [1,4)`, `ci ∈ [2,5)`. -/
theorem c2_restricted_block_length :
    (∀ rb re cb ce n : Nat, rb ≤ re → re ≤ n → cb ≤ ce → ce ≤ n →
        n < 2147483648 → ¬(re = 0 ∧ ce = 0) →
        distance_matrix_length ⟨rb, re, cb, ce⟩ n =
          some (claimLength rb re cb ce)) ∧
      distance_matrix_length ⟨1, 4, 2, 5⟩ 6 = some ((bruteCount : Nat) : Int) := by
  constructor
  · intro rb re cb ce n hrb hre hcb hce hn hblk
    rw [dml_restricted rb re cb ce n hre hcb hce (by omega) hblk]
    apply congrArg
    simp only [claimLength]
    apply congrArg
    apply List.map_congr_left
    intro ri _
    exact (claimRow_eq_rowAdd hcb ri).symm
  · decide

/-- Witness for C2 at the block `(0,2,0,2)` over `n = 3`. -/
theorem c2_restricted_block_length_witness :
    (0 ≤ 2 ∧ 2 ≤ 3 ∧ ¬(2 = 0 ∧ 2 = 0)) ∧
      distance_matrix_length ⟨0, 2, 0, 2⟩ 3 = some (claimLength 0 2 0 2) :=
  ⟨by decide,
    c2_restricted_block_length.1 0 2 0 2 3 (by decide) (by decide) (by decide)
      (by decide) (by decide) (by decide)⟩

theorem dml_nonsentinel_pairs {rb re cb ce n : Nat} (hre : re ≤ n) (hcb : cb ≤ ce)
    (hce : ce ≤ n) (hn : n ≤ 65536) (hblk : ¬(re = 0 ∧ ce = 0)) :
    distance_matrix_length ⟨rb, re, cb, ce⟩ n =
      some ((pairCount ⟨rb, re, cb, ce⟩ : Nat) : Int) := by
  rw [dml_restricted rb re cb ce n hre hcb hce (by omega) hblk]
  rw [rowSum_cast hcb]

/-- C4 (amended): for a block whose `re` and `ce` are either both the `0`
sentinel (with `rb = cb = 0`, the default full-triangle block) or both
nonzero within the documented invariants, and a collection small enough that
the 32-bit intermediate of the length computation is exact (`n ≤ 65536`),
`distance_matrix` allocates a flat buffer whose length is exactly
`distance_matrix_length(block, n)`, and that length equals the number of
pairs `(ri, ci)` with `ri ∈ [rb, re')`, `ci ∈ [max(ri+1, cb), ce')` after
sentinel resolution.  (As stated the claim is false: `distance_matrix`
resolves `re` and `ce` independently while `distance_matrix_length` treats
the sentinel only when both are zero, so one-sided-sentinel blocks get a
buffer smaller than their pair count — see the counterexample.) -/
theorem c4_buffer_length_matches_pairs (rb re cb ce n : Nat) (cur : PyData)
    (hcur : cur = PyData.listOfBuffers n ∨ ∃ c, cur = PyData.uniformMatrix n c)
    (hn : n ≤ 65536)
    (hb : (rb = 0 ∧ re = 0 ∧ cb = 0 ∧ ce = 0) ∨
        (0 < re ∧ 0 < ce ∧ rb ≤ re ∧ re ≤ n ∧ cb ≤ ce ∧ ce ≤ n)) :
    distance_matrix (.pairs rb re cb ce) cur =
      .ok ⟨pairCount (resolveBlock ⟨rb, re, cb, ce⟩ n),
        resolveBlock ⟨rb, re, cb, ce⟩ n, true⟩ ∧
    distance_matrix_length ⟨rb, re, cb, ce⟩ n =
      some ((pairCount (resolveBlock ⟨rb, re, cb, ce⟩ n) : Nat) : Int) := by
  have hform : pyLen cur = some n ∧ ∃ f, dtw_series_from_data cur = .ok f := by
    rcases hcur with rfl | ⟨c, rfl⟩
    · exact ⟨rfl, ⟨.pointers n, rfl⟩⟩
    · exact ⟨rfl, ⟨.matrixForm n c, rfl⟩⟩
  obtain ⟨hpl, f, hform⟩ := hform
  have key : resolveBlock ⟨rb, re, cb, ce⟩ n = resolveBlock ⟨rb, re, cb, ce⟩ n ∧
      distance_matrix_length ⟨rb, re, cb, ce⟩ n =
        some ((pairCount (resolveBlock ⟨rb, re, cb, ce⟩ n) : Nat) : Int) ∧
      pairCount (resolveBlock ⟨rb, re, cb, ce⟩ n) ≤ 2147450880 := by
    rcases hb with ⟨h1, h2, h3, h4⟩ | ⟨h1, h2, h3, h4, h5, h6⟩
    · subst h1; subst h2; subst h3; subst h4
      have hres : resolveBlock ⟨0, 0, 0, 0⟩ n = ⟨0, n, 0, n⟩ := by
        simp [resolveBlock]
      refine ⟨rfl, ?_, ?_⟩
      · rw [hres, pairCount_full, dml_full_exact hn]
      · rw [hres, pairCount_full]
        exact tri_le hn
    · have hres : resolveBlock ⟨rb, re, cb, ce⟩ n = ⟨rb, re, cb, ce⟩ := by
        simp [resolveBlock]
        omega
      refine ⟨rfl, ?_, ?_⟩
      · rw [hres]
        exact dml_nonsentinel_pairs h4 h5 h6 hn (by omega)
      · rw [hres]
        exact le_trans (pairCount_le_tri h4 h6) (tri_le hn)
    -- both sides of the conjunction use the resolved block
  obtain ⟨-, hdml, hsmall⟩ := key
  refine ⟨?_, hdml⟩
  have hblockb : blockBounds (.pairs rb re cb ce) = (⟨rb, re, cb, ce⟩ : CBlock) := rfl
  simp only [distance_matrix, hblockb, hpl, hdml, hform]
  rw [if_neg (by omega)]
  simp [Int.toNat_natCast]

/-- Counterexample for C4 as stated: the one-sided-sentinel block
`((0, 0), (0, 3))` over `n = 5` gets `distance_matrix_length = 0` (the loop
`range(0, 0)` is empty since only a joint `re = ce = 0` is treated as the
full triangle), so `distance_matrix` allocates a zero-length buffer — yet
after the binding's independent sentinel resolution the block becomes
`(rb=0, re=5, cb=0, ce=3)`, which contains `3` pairs. -/
theorem c4_counterexample :
    distance_matrix (.pairs 0 0 0 3) (.listOfBuffers 5) =
      .ok ⟨0, ⟨0, 5, 0, 3⟩, true⟩ ∧
    resolveBlock ⟨0, 0, 0, 3⟩ 5 = ⟨0, 5, 0, 3⟩ ∧
    pairCount ⟨0, 5, 0, 3⟩ = 3 ∧ (0 : Nat) ≠ 3 :=
  ⟨rfl, by decide, by decide, by decide⟩

/-- Witness for C4 (amended) at the block `(1, 3, 2, 4)` over five
sequences. -/
theorem c4_buffer_length_matches_pairs_witness :
    (5 ≤ 65536 ∧ 0 < 3 ∧ 0 < 4) ∧
      distance_matrix (.pairs 1 3 2 4) (.listOfBuffers 5) =
        .ok ⟨pairCount (resolveBlock ⟨1, 3, 2, 4⟩ 5),
          resolveBlock ⟨1, 3, 2, 4⟩ 5, true⟩ ∧
      distance_matrix_length ⟨1, 3, 2, 4⟩ 5 =
        some ((pairCount (resolveBlock ⟨1, 3, 2, 4⟩ 5) : Nat) : Int) :=
  ⟨⟨by decide, by decide, by decide⟩,
    c4_buffer_length_matches_pairs 1 3 2 4 5 (.listOfBuffers 5) (Or.inl rfl)
      (by decide) (Or.inr ⟨by decide, by decide, by decide, by decide, by decide,
        by decide⟩)⟩

/-- C5: whenever `distance_matrix_length` signals the overflow failure
(returns Python `None`), `distance_matrix` does not proceed: assigning `None`
to the `cdef int length` raises `TypeError` before any buffer is resized and
before any per-pair kernel is invoked. -/
theorem c5_overflow_stops_distance_matrix (b : BlockArg) (cur : PyData) (n : Nat)
    (hlen : pyLen cur = some n)
    (hnone : distance_matrix_length (blockBounds b) n = none) :
    distance_matrix b cur = .error .typeError ∧
      kernelWasInvoked (distance_matrix b cur) = false := by
  have h : distance_matrix b cur = .error .typeError := by
    simp only [distance_matrix, hlen, hnone]
  exact ⟨h, by rw [h]; rfl⟩

/-- Witness for C5: the full-triangle sentinel over `65539` sequences, where
the 32-bit product wraps negative and `distance_matrix_length` takes the
error path. -/
theorem c5_overflow_stops_distance_matrix_witness :
    distance_matrix_length (blockBounds .pyNone) 65539 = none ∧
      (distance_matrix .pyNone (.listOfBuffers 65539) = .error .typeError ∧
        kernelWasInvoked (distance_matrix .pyNone (.listOfBuffers 65539)) = false) :=
  ⟨by decide,
    c5_overflow_stops_distance_matrix .pyNone (.listOfBuffers 65539) 65539 rfl
      (by decide)⟩

theorem memviewFirst_error {s : List ℚ} {e : PyErr}
    (h : memviewFirst s = .error e) : e = .indexError := by
  simp only [memviewFirst] at h
  split_ifs at h
  injection h with h'
  exact h'.symm

/-- Counterexample for C6 as stated: `distance` on two zero-length sequences
does not return the boundary-only result `0` — taking `&s1[0]` on the empty
memoryview raises `IndexError` (Cython bounds checking), so the call errors
out before the kernel runs. -/
theorem c6_counterexample :
    distance ([] : List ℚ) ([] : List ℚ) ⟨0, 0, 0, 0, 0, 0⟩ =
      .error .indexError := rfl

/-- C6 (amended): `distance` with a zero-length sequence (either or both of
`s1`, `s2` empty) never reaches the kernel: the bounds-checked `&s1[0]` /
`&s2[0]` evaluation raises `IndexError`, for every settings record.  The
claimed boundary-only result (0 for two empty sequences) is never
returned. -/
theorem c6_empty_input_raises (s1 s2 : List ℚ) (st : CSettings)
    (h : s1 = [] ∨ s2 = []) : distance s1 s2 st = .error .indexError := by
  rcases h with rfl | rfl
  · rfl
  · cases h1 : memviewFirst s1 with
    | ok u =>
      have h2 : memviewFirst ([] : List ℚ) = .error .indexError := rfl
      simp only [distance, h1, h2]
    | error e =>
      have he := memviewFirst_error h1
      subst he
      simp only [distance, h1]

/-- Witness for C6 (amended): an empty first sequence against a nonempty
second one. -/
theorem c6_empty_input_raises_witness :
    (([] : List ℚ) = [] ∨ [(1 : ℚ)] = []) ∧
      distance ([] : List ℚ) [(1 : ℚ)] ⟨0, 0, 0, 0, 0, 0⟩ = .error .indexError :=
  ⟨Or.inl rfl, c6_empty_input_raises [] [(1 : ℚ)] ⟨0, 0, 0, 0, 0, 0⟩ (Or.inl rfl)⟩

/-- C7: every `cur` collection that is neither a list-of-buffers nor a
uniform two-dimensional matrix makes `distance_matrix` raise a reportable
error (a `TypeError`/`ValueError`/`AttributeError`, collapsed into the
model's error kinds), and the error surfaces before any per-pair distance
computation is performed. -/
theorem c7_invalid_input_rejected (b : BlockArg) (n : Nat) :
    (∃ e, distance_matrix b (.invalidData n) = .error e) ∧
    distance_matrix b .invalidNoLen = .error .typeError ∧
    kernelWasInvoked (distance_matrix b (.invalidData n)) = false ∧
    kernelWasInvoked (distance_matrix b .invalidNoLen) = false := by
  have hdat : ∃ e, distance_matrix b (.invalidData n) = .error e := by
    simp only [distance_matrix, pyLen, dtw_series_from_data]
    cases hd : distance_matrix_length (blockBounds b) n with
    | none => exact ⟨.typeError, rfl⟩
    | some L =>
      by_cases hL : 2147483648 ≤ L
      · exact ⟨.overflowError, by simp [hL]⟩
      · exact ⟨.conversionError, by simp [hL]⟩
  have hnol : distance_matrix b .invalidNoLen = .error .typeError := rfl
  obtain ⟨e, he⟩ := hdat
  exact ⟨⟨e, he⟩, hnol, by rw [he]; rfl, by rw [hnol]; rfl⟩

/-- C8: the DTW distance is symmetric — `distance(a, b)` equals
`distance(b, a)` for all sequences and any fixed settings (also through the
binding's empty-input error path, which yields the same `IndexError` in both
orders). -/
theorem c8_distance_symmetric (s1 s2 : List ℚ) (st : CSettings) :
    distance s1 s2 st = distance s2 s1 st := by
  cases h1 : memviewFirst s1 with
  | error e1 =>
    have he1 := memviewFirst_error h1
    subst he1
    cases h2 : memviewFirst s2 with
    | error e2 =>
      have he2 := memviewFirst_error h2
      subst he2
      simp only [distance, h1, h2]
    | ok u => simp only [distance, h1, h2]
  | ok u =>
    cases h2 : memviewFirst s2 with
    | error e2 =>
      have he2 := memviewFirst_error h2
      subst he2
      simp only [distance, h1, h2]
    | ok v =>
      simp only [distance, h1, h2]
      rw [dtw_distance_symm]

/-- C9: for each of the six recognized options (`window`, `max_dist`,
`max_step`, `max_length_diff`, `penalty`, `psi`), passing the option
explicitly as Python `None` to `DTWSettings` stores the value `0`
(the unconstrained/default behaviour), identically for every option and
whatever the C default settings record contains. -/
theorem c9_none_option_stores_zero (defaults : CSettings) (kw : SettingsKwargs) :
    (kw.window = some none → (DTWSettings_init defaults kw).window = 0) ∧
    (kw.max_dist = some none → (DTWSettings_init defaults kw).max_dist = 0) ∧
    (kw.max_step = some none → (DTWSettings_init defaults kw).max_step = 0) ∧
    (kw.max_length_diff = some none →
      (DTWSettings_init defaults kw).max_length_diff = 0) ∧
    (kw.penalty = some none → (DTWSettings_init defaults kw).penalty = 0) ∧
    (kw.psi = some none → (DTWSettings_init defaults kw).psi = 0) := by
  refine ⟨?_, ?_, ?_, ?_, ?_, ?_⟩ <;>
    intro h <;> simp [DTWSettings_init, applyKw, h]

/-- Witness for C9: all six options passed as `None` over a nonzero defaults
record store six zeros. -/
theorem c9_none_option_stores_zero_witness :
    kwAllNone.window = some none ∧
    (DTWSettings_init exampleDefaults kwAllNone).window = 0 ∧
    (DTWSettings_init exampleDefaults kwAllNone).max_dist = 0 ∧
    (DTWSettings_init exampleDefaults kwAllNone).max_step = 0 ∧
    (DTWSettings_init exampleDefaults kwAllNone).max_length_diff = 0 ∧
    (DTWSettings_init exampleDefaults kwAllNone).penalty = 0 ∧
    (DTWSettings_init exampleDefaults kwAllNone).psi = 0 :=
  ⟨rfl,
    (c9_none_option_stores_zero exampleDefaults kwAllNone).1 rfl,
    (c9_none_option_stores_zero exampleDefaults kwAllNone).2.1 rfl,
    (c9_none_option_stores_zero exampleDefaults kwAllNone).2.2.1 rfl,
    (c9_none_option_stores_zero exampleDefaults kwAllNone).2.2.2.1 rfl,
    (c9_none_option_stores_zero exampleDefaults kwAllNone).2.2.2.2.1 rfl,
    (c9_none_option_stores_zero exampleDefaults kwAllNone).2.2.2.2.2 rfl⟩

/-- C10: a `block` argument comparing equal to `0.0` (e.g. the integer `0`)
is treated by `distance_matrix` exactly like an absent (`None`) block: the
guard `block is not None and block != 0.0` fails, the bounds stay at the
all-zero sentinel, and on success the resolved block handed to the batch
kernel is the full triangle `(0, n, 0, n)`. -/
theorem c10_zero_block_is_full_triangle (cur : PyData) :
    distance_matrix .pyZero cur = distance_matrix .pyNone cur ∧
    (∀ (n : Nat) (o : MatrixOutcome), pyLen cur = some n →
      distance_matrix .pyZero cur = .ok o → o.resolvedBlock = ⟨0, n, 0, n⟩) := by
  constructor
  · rfl
  · intro n o hn hok
    simp only [distance_matrix, blockBounds, hn] at hok
    cases hd : distance_matrix_length ⟨0, 0, 0, 0⟩ n with
    | none => rw [hd] at hok; cases hok
    | some L =>
      rw [hd] at hok
      simp only [] at hok
      by_cases hL : 2147483648 ≤ L
      · rw [if_pos hL] at hok
        cases hok
      · rw [if_neg hL] at hok
        cases hc : dtw_series_from_data cur with
        | error e => rw [hc] at hok; cases hok
        | ok f =>
          rw [hc] at hok
          simp only [] at hok
          cases hok
          simp [resolveBlock]

/-- Witness for C10: three sequences and the integer `0` as block. -/
theorem c10_zero_block_is_full_triangle_witness :
    distance_matrix .pyZero (.listOfBuffers 3) =
      distance_matrix .pyNone (.listOfBuffers 3) ∧
    (⟨3, ⟨0, 3, 0, 3⟩, true⟩ : MatrixOutcome).resolvedBlock = ⟨0, 3, 0, 3⟩ :=
  ⟨(c10_zero_block_is_full_triangle (.listOfBuffers 3)).1,
    (c10_zero_block_is_full_triangle (.listOfBuffers 3)).2 3
      ⟨3, ⟨0, 3, 0, 3⟩, true⟩ rfl rfl⟩
